import Mathlib

/-!
# Shallow embedding of the tg-golddog-alert position/order lifecycle engine

This file embeds the core trading engine of the repository in Lean 4:
the data model (`Position`, `Order`, `TradeHistoryRecord`), the SQLite
persistence layer (`TradingDatabase`, mirroring `src/database/tradingDb.ts`),
the order engine (`OrderManager`, mirroring `src/trading/orderManager.ts`),
the position engine (`PositionManager`, mirroring
`src/trading/positionManager.ts`), and the ingress guard of
`WebSocketHandler.processToken` (`src/core/websocket.ts`).

Modelling conventions:
* JS `number` values (prices, ratios, thresholds) are embedded as `ℚ`;
  timestamps (`Date.now()`) as `ℕ` milliseconds.  The one place where NaN
  matters to a claim (`processToken`'s `isNaN(price)` guard) is modelled by
  an explicit `mcNaN` flag on the incoming tick.
* The external world (Jupiter swap execution, on-chain balance queries,
  clock, randomness) is an oracle `Env`.  Per-call observations (balance,
  sell result, a thrown rejection) are keyed by the executing order's id.
* `async`/`await` sequencing is direct state passing; the in-memory
  mutable state of the engines (the `executingOrders` set, the order-id
  counter, the per-token `processing` set) is threaded explicitly.
* bigint token balances are `Option ℕ` (`none` models the `null` returned
  by `getTokenBalance` when no token account exists).
-/

/-- `OrderType` from `src/types`. -/
inductive OrderType
  | MARKET_BUY
  | STOP_LOSS
  | TAKE_PROFIT
  | LFG_SELL
  deriving DecidableEq

/-- `OrderStatus` from `src/types`. -/
inductive OrderStatus
  | PENDING
  | TRIGGERED
  | EXECUTING
  | COMPLETED
  | FAILED
  | CANCELLED
  deriving DecidableEq

/-- `TriggerType` from `src/types`. -/
inductive TriggerType
  | PRICE
  | GAIN_PERCENT
  | LFG_FLAG
  | IMMEDIATE
  deriving DecidableEq

/-- The `'GTE' | 'LTE' | 'EQ'` trigger comparison from `src/types`. -/
inductive TriggerCondition
  | GTE
  | LTE
  | EQ
  deriving DecidableEq

/-- `PositionStatus` from `src/types` (a single state; closure is deletion). -/
inductive PositionStatus
  | ACTIVE
  deriving DecidableEq

/-- `Position` from `src/types`. -/
structure Position where
  id : String
  address : String
  symbol : String
  entryPrice : ℚ
  currentPrice : ℚ
  highestPrice : ℚ
  lowestPrice : ℚ
  solInvested : ℚ
  entryTime : ℕ
  lastUpdated : ℕ
  status : PositionStatus
  lfg : ℕ
  deriving DecidableEq

/-- `Order` from `src/types`. -/
structure Order where
  id : String
  positionId : String
  type : OrderType
  status : OrderStatus
  sellRatio : ℚ
  triggerType : TriggerType
  triggerCondition : TriggerCondition
  triggerValue : ℚ
  triggerDescription : String
  createdAt : ℕ
  triggeredAt : Option ℕ
  executedAt : Option ℕ
  signature : Option String
  error : Option String
  retryCount : ℕ
  description : String
  deriving DecidableEq

/-- `OrderExecutionResult` from `src/types`. -/
structure OrderExecutionResult where
  success : Bool
  signature : Option String
  error : Option String
  deriving DecidableEq

/-- `TradeHistoryRecord` from `src/types` (as persisted by `insertTradeHistory`). -/
structure TradeHistoryRecord where
  positionId : String
  orderId : String
  symbol : String
  address : String
  type : OrderType
  sellRatio : ℚ
  entryPrice : ℚ
  exitPrice : ℚ
  gainPercent : ℚ
  executedAt : ℕ
  signature : String
  reason : String
  deriving DecidableEq

/-- `OrderCreationParams` from `src/types`. -/
structure OrderCreationParams where
  positionId : String
  type : OrderType
  sellRatio : ℚ
  triggerType : TriggerType
  triggerCondition : TriggerCondition
  triggerValue : ℚ
  triggerDescription : String
  description : String
  deriving DecidableEq

/-- The `CONFIG` object from `src/config/index.ts`; the numeric values come
from environment variables, so the embedding keeps them as parameters. -/
structure TradingConfig where
  tradeEnabled : Bool
  solInvestmentAmount : ℚ
  maxPositions : ℕ
  initialStopLoss : ℚ
  doubleProfitThreshold : ℚ
  doubleSellRatio : ℚ
  targetMc1 : ℚ
  targetMc1Ratio : ℚ
  targetMc2 : ℚ
  targetMc2Ratio : ℚ
  lfgSellRatio : ℚ

/-- Oracle for the external world: the clock (`Date.now()`), the random part
of order ids, the Jupiter buy/sell capabilities, the on-chain balance query,
and a possible thrown rejection surfacing inside `executeOrder`'s `try`
block.  Per-call observations are keyed by the executing order's id. -/
structure Env where
  now : ℕ
  random : ℕ
  buyResult : Position → OrderExecutionResult
  balance : String → Option ℕ
  sellResult : String → OrderExecutionResult
  raise : String → Option String

/-- The three tables of `src/database/tradingDb.ts`; rows are kept in
insertion order. -/
structure TradingDatabase where
  positions : List Position
  orders : List Order
  tradeHistory : List TradeHistoryRecord
  deriving DecidableEq

namespace TradingDatabase

/-- `INSERT INTO positions ...` (`TradingDatabase.insertPosition`). -/
def insertPosition (db : TradingDatabase) (position : Position) : TradingDatabase :=
  { db with positions := db.positions ++ [position] }

/-- The five-column `UPDATE positions SET current_price, highest_price,
lowest_price, last_updated, lfg WHERE id = ?`
(`TradingDatabase.updatePosition`). -/
def updatePosition (db : TradingDatabase) (p : Position) : TradingDatabase :=
  { db with positions := db.positions.map fun q =>
      if q.id = p.id then
        { q with currentPrice := p.currentPrice, highestPrice := p.highestPrice,
                 lowestPrice := p.lowestPrice, lastUpdated := p.lastUpdated, lfg := p.lfg }
      else q }

/-- `SELECT * FROM positions WHERE address = ?` (`TradingDatabase.getPosition`). -/
def getPosition (db : TradingDatabase) (address : String) : Option Position :=
  db.positions.find? fun q => q.address = address

/-- `DELETE FROM positions WHERE id = ?`; the `ON DELETE CASCADE` foreign key
on `orders.position_id` removes the position's orders with it
(`TradingDatabase.deletePosition`). -/
def deletePosition (db : TradingDatabase) (positionId : String) : TradingDatabase :=
  { db with positions := db.positions.filter fun q => q.id ≠ positionId,
            orders := db.orders.filter fun o => o.positionId ≠ positionId }

/-- `SELECT COUNT(*) FROM positions WHERE status = 'ACTIVE'`
(`TradingDatabase.getPositionCount`). -/
def getPositionCount (db : TradingDatabase) : ℕ :=
  (db.positions.filter fun q => q.status = PositionStatus.ACTIVE).length

/-- `INSERT INTO orders ...` — the insert lists no `triggered_at`,
`executed_at`, `signature` or `error` column, so those are NULL in the row
(`TradingDatabase.insertOrder`). -/
def insertOrder (db : TradingDatabase) (o : Order) : TradingDatabase :=
  { db with orders := db.orders ++
      [{ o with triggeredAt := none, executedAt := none, signature := none, error := none }] }

/-- The six-column `UPDATE orders SET status, triggered_at, executed_at,
signature, error, retry_count WHERE id = ?` (`TradingDatabase.updateOrder`). -/
def updateOrder (db : TradingDatabase) (o : Order) : TradingDatabase :=
  { db with orders := db.orders.map fun q =>
      if q.id = o.id then
        { q with status := o.status, triggeredAt := o.triggeredAt, executedAt := o.executedAt,
                 signature := o.signature, error := o.error, retryCount := o.retryCount }
      else q }

/-- Insertion step for the `ORDER BY created_at DESC` retrieval order. -/
def insertByCreatedAtDesc (o : Order) : List Order → List Order
  | [] => [o]
  | x :: xs =>
      if o.createdAt ≤ x.createdAt then x :: insertByCreatedAtDesc o xs else o :: x :: xs

/-- `SELECT * FROM orders WHERE position_id = ? ORDER BY created_at DESC`
(`TradingDatabase.getPositionOrders`). -/
def getPositionOrders (db : TradingDatabase) (positionId : String) : List Order :=
  (db.orders.filter fun o => o.positionId = positionId).foldr insertByCreatedAtDesc []

/-- `UPDATE orders SET status = 'CANCELLED' WHERE id = ? AND status =
'PENDING'`, reporting whether a row changed (`TradingDatabase.cancelOrder`). -/
def cancelOrder (db : TradingDatabase) (orderId : String) : Bool × TradingDatabase :=
  (db.orders.any fun o => o.id = orderId ∧ o.status = OrderStatus.PENDING,
   { db with orders := db.orders.map fun o =>
       if o.id = orderId ∧ o.status = OrderStatus.PENDING then
         { o with status := OrderStatus.CANCELLED }
       else o })

/-- `UPDATE orders SET status = 'CANCELLED' WHERE position_id = ? AND status
= 'PENDING'`, reporting the changed-row count
(`TradingDatabase.cancelPositionOrders`). -/
def cancelPositionOrders (db : TradingDatabase) (positionId : String) : ℕ × TradingDatabase :=
  ((db.orders.filter fun o => o.positionId = positionId ∧ o.status = OrderStatus.PENDING).length,
   { db with orders := db.orders.map fun o =>
       if o.positionId = positionId ∧ o.status = OrderStatus.PENDING then
         { o with status := OrderStatus.CANCELLED }
       else o })

/-- `INSERT INTO trade_history ...` (`TradingDatabase.insertTradeHistory`). -/
def insertTradeHistory (db : TradingDatabase) (t : TradeHistoryRecord) : TradingDatabase :=
  { db with tradeHistory := db.tradeHistory ++ [t] }

end TradingDatabase

namespace OrderManager

/-- The sentinel error string of the distinguished zero-balance result
(`OrderManager.executeSellOrder`). -/
def noBalanceMsg : String := "No token balance available & shouldClosePosition"

/-- The failure returned on a concurrent-execution collision
(`OrderManager.executeOrder`). -/
def alreadyExecutingResult : OrderExecutionResult :=
  { success := false, signature := none, error := some "Order already executing" }

/-- String name of an order type, as interpolated into order ids. -/
def OrderType.nameStr : OrderType → String
  | OrderType.MARKET_BUY => "MARKET_BUY"
  | OrderType.STOP_LOSS => "STOP_LOSS"
  | OrderType.TAKE_PROFIT => "TAKE_PROFIT"
  | OrderType.LFG_SELL => "LFG_SELL"

/-- `OrderManager.generateOrderId`: `positionId_type_timestamp_counter_random`. -/
def generateOrderId (env : Env) (counter : ℕ) (positionId : String) (ty : OrderType) : String :=
  positionId ++ "_" ++ OrderType.nameStr ty ++ "_" ++ toString env.now ++ "_"
    ++ toString counter ++ "_" ++ toString env.random

/-- `OrderManager.createOrder`: builds a PENDING order, persists it, returns
it; the manager's `orderCounter` is threaded explicitly. -/
def createOrder (env : Env) (db : TradingDatabase) (counter : ℕ)
    (params : OrderCreationParams) : Order × TradingDatabase × ℕ :=
  let counter' := counter + 1
  let order : Order :=
    { id := generateOrderId env counter' params.positionId params.type,
      positionId := params.positionId,
      type := params.type,
      status := OrderStatus.PENDING,
      sellRatio := params.sellRatio,
      triggerType := params.triggerType,
      triggerCondition := params.triggerCondition,
      triggerValue := params.triggerValue,
      triggerDescription := params.triggerDescription,
      createdAt := env.now,
      triggeredAt := none, executedAt := none, signature := none, error := none,
      retryCount := 0,
      description := params.description }
  (order, db.insertOrder order, counter')

/-- `OrderManager.checkCondition`. -/
def checkCondition (actual : ℚ) (condition : TriggerCondition) (target : ℚ) : Bool :=
  match condition with
  | TriggerCondition.GTE => actual ≥ target
  | TriggerCondition.LTE => actual ≤ target
  | TriggerCondition.EQ => actual = target

/-- The gain formula `((currentPrice - entryPrice) / entryPrice) * 100`
recomputed at several places in the source. -/
def gainOf (position : Position) : ℚ :=
  (position.currentPrice - position.entryPrice) / position.entryPrice * 100

/-- `OrderManager.shouldTriggerOrder`. -/
def shouldTriggerOrder (order : Order) (position : Position) : Bool :=
  match order.triggerType with
  | TriggerType.PRICE =>
      checkCondition position.currentPrice order.triggerCondition order.triggerValue
  | TriggerType.GAIN_PERCENT =>
      checkCondition (gainOf position) order.triggerCondition order.triggerValue
  | TriggerType.LFG_FLAG => (position.lfg : ℚ) = order.triggerValue
  | TriggerType.IMMEDIATE => true

/-- `OrderManager.executeBuyOrder`: delegates to `executeBuy` (Jupiter swap,
network I/O — an `Env` capability); its `try`/`catch` folds thrown errors
into a failure result, which the oracle already ranges over. -/
def executeBuyOrder (env : Env) (_order : Order) (position : Position) : OrderExecutionResult :=
  env.buyResult position

/-- `OrderManager.executeSellOrder`: (after the fixed LFG delay, a no-op
here) queries the token balance; `balance === 0n` yields the distinguished
zero-balance result with `success: true`; any other balance (including the
`null` of a missing token account) delegates to `executeSell` (network I/O —
an `Env` capability keyed by the order id). -/
def executeSellOrder (env : Env) (order : Order) (_position : Position) : OrderExecutionResult :=
  match env.balance order.id with
  | some 0 => { success := true, signature := none, error := some noBalanceMsg }
  | some (_ + 1) => env.sellResult order.id
  | none => env.sellResult order.id

/-- The `TradeHistoryRecord` literal built inside
`OrderManager.recordTradeHistory`. -/
def mkTradeRecord (env : Env) (order : Order) (position : Position)
    (result : OrderExecutionResult) : TradeHistoryRecord :=
  { positionId := position.id,
    orderId := order.id,
    symbol := position.symbol,
    address := position.address,
    type := order.type,
    sellRatio := order.sellRatio,
    entryPrice := position.entryPrice,
    exitPrice := position.currentPrice,
    gainPercent := gainOf position,
    executedAt := env.now / 1000,
    signature := (result.signature).getD "",
    reason := order.description }

/-- JS truthiness of the optional signature string:
`!result.signature` is true for `undefined` and for the empty string. -/
def hasSignature (result : OrderExecutionResult) : Bool :=
  match result.signature with
  | none => false
  | some s => s ≠ ""

/-- `OrderManager.recordTradeHistory`: returns unchanged when
`order.type === OrderType.MARKET_BUY || !result.signature`, else appends the
audit row. -/
def recordTradeHistory (env : Env) (order : Order) (position : Position)
    (result : OrderExecutionResult) (db : TradingDatabase) : TradingDatabase :=
  if order.type = OrderType.MARKET_BUY ∨ hasSignature result = false then db
  else db.insertTradeHistory (mkTradeRecord env order position result)

/-- The value returned by `OrderManager.executeOrder` together with the
post-state: the final in-memory order object, the store, and the
`executingOrders` set. -/
structure ExecOutcome where
  result : OrderExecutionResult
  order : Order
  db : TradingDatabase
  executing : List String
  deriving DecidableEq

/-- `OrderManager.executeOrder`.  If the order id is already in the
`executingOrders` set, returns the benign collision failure with no state
change.  Otherwise: adds the id to the set, marks the order EXECUTING and
persists, dispatches by order kind inside `try` (a thrown rejection is the
`env.raise` case, landing in `catch`), records history and marks COMPLETED
on success or marks FAILED and bumps the retry counter on failure, persists,
and in `finally` removes the id from the set. -/
def executeOrder (env : Env) (executing : List String) (db : TradingDatabase)
    (order : Order) (position : Position) : ExecOutcome :=
  if order.id ∈ executing then
    { result := alreadyExecutingResult, order := order, db := db, executing := executing }
  else
    let executing₁ := order.id :: executing
    let order₁ := { order with status := OrderStatus.EXECUTING }
    let db₁ := db.updateOrder order₁
    match env.raise order.id with
    | some msg =>
        let order₂ := { order₁ with status := OrderStatus.FAILED, error := some msg,
                                    retryCount := order₁.retryCount + 1 }
        { result := { success := false, signature := none, error := some msg },
          order := order₂, db := db₁.updateOrder order₂, executing := executing₁.erase order.id }
    | none =>
        let result :=
          if order.type = OrderType.MARKET_BUY then executeBuyOrder env order₁ position
          else executeSellOrder env order₁ position
        if result.success then
          let order₂ := { order₁ with status := OrderStatus.COMPLETED,
                                      executedAt := some env.now,
                                      signature := result.signature }
          let db₂ := recordTradeHistory env order₂ position result db₁
          { result := result, order := order₂, db := db₂.updateOrder order₂,
            executing := executing₁.erase order.id }
        else
          let order₂ := { order₁ with status := OrderStatus.FAILED, error := result.error,
                                      retryCount := order₁.retryCount + 1 }
          { result := result, order := order₂, db := db₁.updateOrder order₂,
            executing := executing₁.erase order.id }

/-- The `for`-loop body of `OrderManager.checkAndExecuteOrders`, recursing
over the pending orders.  Returns `(shouldClosePosition, store, executing)`. -/
def checkOrdersLoop (env : Env) (position : Position) :
    List Order → List String → TradingDatabase → Bool × TradingDatabase × List String
  | [], executing, db => (false, db, executing)
  | order :: rest, executing, db =>
      if shouldTriggerOrder order position then
        let order₁ := { order with status := OrderStatus.TRIGGERED, triggeredAt := some env.now }
        let db₁ := db.updateOrder order₁
        let out := executeOrder env executing db₁ order₁ position
        if out.result.success = false ∧ out.result.error = some noBalanceMsg then
          (true, out.db, out.executing)
        else if out.result.success = true ∧ (100 : ℚ) ≤ order₁.sellRatio then
          (true, out.db, out.executing)
        else
          checkOrdersLoop env position rest out.executing out.db
      else
        checkOrdersLoop env position rest executing db

/-- `OrderManager.checkAndExecuteOrders`: fetch the position's orders,
keep the PENDING ones, and run the evaluate-and-execute loop. -/
def checkAndExecuteOrders (env : Env) (executing : List String) (db : TradingDatabase)
    (position : Position) : Bool × TradingDatabase × List String :=
  let pendingOrders :=
    (db.getPositionOrders position.id).filter fun o => o.status = OrderStatus.PENDING
  checkOrdersLoop env position pendingOrders executing db

/-- `OrderManager.createAndExecuteImmediateOrder`. -/
def createAndExecuteImmediateOrder (env : Env) (executing : List String) (db : TradingDatabase)
    (counter : ℕ) (params : OrderCreationParams) (position : Position) :
    Bool × TradingDatabase × List String × ℕ :=
  let c := createOrder env db counter params
  let out := executeOrder env executing c.2.1 c.1 position
  (out.result.success, out.db, out.executing, c.2.2)

end OrderManager

namespace PositionManager

open OrderManager

/-- `PositionManager.createDefaultOrders`: stop-loss always; double-profit
take-profit only when the configured ratio is positive and the entry price is
below the 30000 ceiling; target-price tiers and LFG-sell each gated on a
positive configured value.  Returns the store and the new order counter. -/
def createDefaultOrders (cfg : TradingConfig) (env : Env) (db : TradingDatabase)
    (counter : ℕ) (position : Position) : TradingDatabase × ℕ :=
  let s₁ := createOrder env db counter
    { positionId := position.id, type := OrderType.STOP_LOSS, sellRatio := 100,
      triggerType := TriggerType.GAIN_PERCENT, triggerCondition := TriggerCondition.LTE,
      triggerValue := cfg.initialStopLoss,
      triggerDescription := "stop loss", description := "Initial stop loss" }
  let s₂ :=
    if 0 < cfg.doubleSellRatio ∧ position.entryPrice < 30000 then
      let c := createOrder env s₁.2.1 s₁.2.2
        { positionId := position.id, type := OrderType.TAKE_PROFIT,
          sellRatio := cfg.doubleSellRatio,
          triggerType := TriggerType.GAIN_PERCENT, triggerCondition := TriggerCondition.GTE,
          triggerValue := cfg.doubleProfitThreshold,
          triggerDescription := "double profit", description := "Double profit" }
      (c.2.1, c.2.2)
    else (s₁.2.1, s₁.2.2)
  let s₃ :=
    if 0 < cfg.targetMc1 then
      let c := createOrder env s₂.1 s₂.2
        { positionId := position.id, type := OrderType.TAKE_PROFIT,
          sellRatio := cfg.targetMc1Ratio,
          triggerType := TriggerType.PRICE, triggerCondition := TriggerCondition.GTE,
          triggerValue := cfg.targetMc1,
          triggerDescription := "target 1", description := "Target MC 1" }
      (c.2.1, c.2.2)
    else s₂
  let s₄ :=
    if 0 < cfg.targetMc2 then
      let c := createOrder env s₃.1 s₃.2
        { positionId := position.id, type := OrderType.TAKE_PROFIT,
          sellRatio := cfg.targetMc2Ratio,
          triggerType := TriggerType.PRICE, triggerCondition := TriggerCondition.GTE,
          triggerValue := cfg.targetMc2,
          triggerDescription := "target 2", description := "Target MC 2" }
      (c.2.1, c.2.2)
    else s₃
  if 0 < cfg.lfgSellRatio then
    let c := createOrder env s₄.1 s₄.2
      { positionId := position.id, type := OrderType.LFG_SELL,
        sellRatio := cfg.lfgSellRatio,
        triggerType := TriggerType.LFG_FLAG, triggerCondition := TriggerCondition.EQ,
        triggerValue := 1,
        triggerDescription := "LFG trigger", description := "LFG triggered sell" }
    (c.2.1, c.2.2)
  else s₄

/-- The incoming tick (`TokenData` from `src/types`); optional JS fields are
`Option`s, absent strings are `""`, and `mcNaN` models `isNaN(token.mc)`. -/
structure TokenData where
  a : String
  s : String
  mc : ℚ
  mcNaN : Bool
  ct : ℚ
  hd : ℚ
  pg : Option ℚ
  d_ts : String
  s_brs : String
  mt : String
  t10 : ℚ
  etpr : Option ℚ
  rat : Option ℚ
  v1h : Option ℚ
  t70_shr : Option ℚ
  kol : ℚ
  lc_flg : ℕ
  m_t : Option String
  m_w : Option String
  m_x : Option String
  deriving DecidableEq

/-- The `Position` literal built by `PositionManager.createPosition`: all
price fields initialised to the tick price, `address` doubling as the id
(`id: address, // 使用address作为ID`), zero flag. -/
def newPosition (env : Env) (token : TokenData) (solInvested : ℚ) : Position :=
  { id := token.a, address := token.a, symbol := token.s,
    entryPrice := token.mc, currentPrice := token.mc,
    highestPrice := token.mc, lowestPrice := token.mc,
    solInvested := solInvested, entryTime := env.now, lastUpdated := env.now,
    status := PositionStatus.ACTIVE, lfg := 0 }

/-- `PositionManager.createPosition`.  Guards in order: risk limit, then
duplicate instrument.  On acceptance persists the position, creates the
default orders, performs the opening buy, and compensating-deletes the
position (cascading its orders) if the buy reports failure.  Returns the
created position (or `none`), the store, and the order counter. -/
def createPosition (cfg : TradingConfig) (env : Env) (db : TradingDatabase) (counter : ℕ)
    (token : TokenData) (solInvested : ℚ) : Option Position × TradingDatabase × ℕ :=
  if cfg.maxPositions ≤ db.getPositionCount then (none, db, counter)
  else
    match db.getPosition token.a with
    | some _ => (none, db, counter)
    | none =>
        let position := newPosition env token solInvested
        let db₁ := db.insertPosition position
        let s := createDefaultOrders cfg env db₁ counter position
        let buyResult := env.buyResult position
        if buyResult.success then (some position, s.1, s.2)
        else (none, (s.1).deletePosition position.id, s.2)

/-- `PositionManager.closePosition`: cancel the position's PENDING orders,
then hard-delete the position (cascading order deletion); a no-op when the
position is absent. -/
def closePosition (db : TradingDatabase) (address : String) : TradingDatabase :=
  match db.getPosition address with
  | none => db
  | some position =>
      ((db.cancelPositionOrders position.id).2).deletePosition position.id

/-- The in-memory mutation performed by `PositionManager.updatePosition`:
set the current price, extend the extrema, refresh the timestamp, latch the
flag as 0/1. -/
def updatedPosition (env : Env) (position : Position) (newPrice : ℚ) (lfg : ℕ) : Position :=
  { position with currentPrice := newPrice,
                  highestPrice := max position.highestPrice newPrice,
                  lowestPrice := min position.lowestPrice newPrice,
                  lastUpdated := env.now,
                  lfg := if lfg ≠ 0 then 1 else 0 }

/-- `PositionManager.updatePosition`: load the position (no-op when absent),
apply the price/flag mutation, persist; then run the order engine's
evaluate-and-execute pass and close the position (returning `none`) when the
pass signals so. -/
def updatePosition (env : Env) (executing : List String) (db : TradingDatabase)
    (address : String) (newPrice : ℚ) (lfg : ℕ) :
    Option Position × TradingDatabase × List String :=
  match db.getPosition address with
  | none => (none, db, executing)
  | some position =>
      let position₁ := updatedPosition env position newPrice lfg
      let db₁ := db.updatePosition position₁
      let r := checkAndExecuteOrders env executing db₁ position₁
      if r.1 then (none, closePosition r.2.1 address, r.2.2)
      else (some position₁, r.2.1, r.2.2)

/-- `PositionManager.calculateGain`. -/
def calculateGain (position : Position) : ℚ :=
  (position.currentPrice - position.entryPrice) / position.entryPrice * 100

end PositionManager

namespace WebSocketHandler

open PositionManager

/-- `filterToken` from `src/core/filterToken.ts`; JS truthiness of the
optional fields follows the source (`item.pg && item.pg < 1`, absent numeric
comparisons are false, a social link counts when present and nonempty). -/
def filterToken (env : Env) (item : TokenData) : Bool :=
  let currentTime : ℚ := (env.now : ℚ) / 1000
  let ageInMinutes : ℚ := (currentTime - item.ct) / 60
  let strTruthy : Option String → Bool := fun o =>
    match o with
    | none => false
    | some s => s ≠ ""
  let oneSocial := strTruthy item.m_t || strTruthy item.m_w || strTruthy item.m_x
  let pgOk :=
    match item.pg with
    | none => false
    | some v => v ≠ 0 ∧ v < 1
  let optLt : Option ℚ → ℚ → Bool := fun o t =>
    match o with
    | none => false
    | some v => v < t
  let optGt : Option ℚ → ℚ → Bool := fun o t =>
    match o with
    | none => false
    | some v => t < v
  let flgFilter :=
    decide (20000 ≤ item.mc) && decide (item.mc ≤ 50000) && decide (200 < item.hd) &&
    pgOk && optLt item.etpr 8 && optLt item.rat 8 && optGt item.v1h 10000 &&
    optLt item.t70_shr 0.25 && decide (4 ≤ item.kol) &&
    decide (0.15 ≤ item.t10) && decide (item.t10 ≤ 0.30) && decide (3 < ageInMinutes)
  flgFilter && decide (item.d_ts = "creator_close") && decide (item.s_brs = "burn") &&
    decide (item.mt = "full") && decide (item.lc_flg = 0) && oneSocial

/-- The full mutable state behind `WebSocketHandler`: the SQLite store, the
order engine's `executingOrders` set and order-id counter, and the handler's
per-token `processing` guard set. -/
structure HandlerState where
  db : TradingDatabase
  executing : List String
  orderCounter : ℕ
  processing : List String
  deriving DecidableEq

/-- `WebSocketHandler.processToken`: rejects a tick with a missing/empty
address or symbol, a NaN price, or a non-positive price; drops a tick for a
token already being processed; otherwise either admits a new position
through `filterToken`/`createPosition` or routes the update through
`updatePosition`.  The `finally` removal from `processing` makes the guard
set's net change nil. -/
def processToken (cfg : TradingConfig) (env : Env) (st : HandlerState)
    (token : TokenData) : HandlerState :=
  if token.a = "" ∨ token.s = "" ∨ token.mcNaN = true ∨ token.mc ≤ 0 then st
  else if token.a ∈ st.processing then st
  else
    match st.db.getPosition token.a with
    | none =>
        if filterToken env token then
          let r := createPosition cfg env st.db st.orderCounter token cfg.solInvestmentAmount
          { st with db := r.2.1, orderCounter := r.2.2 }
        else st
    | some _ =>
        let r := PositionManager.updatePosition env st.executing st.db token.a token.mc
          token.lc_flg
        { st with db := r.2.1, executing := r.2.2 }

end WebSocketHandler

section SpecSide

open OrderManager PositionManager WebSocketHandler

/-- Modelled from the spec: `compare(actual, cmp, target)` — GTE means
`actual ≥ target`, LTE means `actual ≤ target`, EQ means exact equality.
Stated as a proposition to compare against `checkCondition` from the code. -/
def compareSpec (actual : ℚ) (cmp : TriggerCondition) (target : ℚ) : Prop :=
  match cmp with
  | TriggerCondition.GTE => actual ≥ target
  | TriggerCondition.LTE => actual ≤ target
  | TriggerCondition.EQ => actual = target

/-- At most one position row per instrument address (the spec's uniqueness
invariant; every stored position is ACTIVE). -/
def AtMostOnePerAddress (db : TradingDatabase) : Prop :=
  ∀ a : String, (db.positions.countP fun q => q.address = a) ≤ 1

/-- Every stored position uses its instrument address as its id — true of
every position the engine creates (`id: address, // 使用address作为ID`). -/
def IdEqAddress (db : TradingDatabase) : Prop :=
  ∀ q ∈ db.positions, q.id = q.address

/-- A sequence of `PositionManager.updatePosition` calls for one instrument,
threading the store and the `executingOrders` set. -/
def applyUpdates (env : Env) (address : String) :
    List (ℚ × ℕ) → TradingDatabase × List String → TradingDatabase × List String
  | [], s => s
  | u :: rest, s =>
      let r := PositionManager.updatePosition env s.2 s.1 address u.1 u.2
      applyUpdates env address rest (r.2.1, r.2.2)

/-- The position fields that `updatePosition` must not touch (everything
except current price, extrema, timestamp and flag). -/
def frameFields (q : Position) : String × String × String × ℚ × ℚ × ℕ × PositionStatus :=
  (q.id, q.address, q.symbol, q.entryPrice, q.solInvested, q.entryTime, q.status)

/-- The order-kind dispatch of `executeOrder` (buy capability for
MARKET_BUY, the balance-checked sell path otherwise). -/
def dispatchResult (env : Env) (order : Order) (position : Position) : OrderExecutionResult :=
  if order.type = OrderType.MARKET_BUY then
    executeBuyOrder env { order with status := OrderStatus.EXECUTING } position
  else
    executeSellOrder env { order with status := OrderStatus.EXECUTING } position

end SpecSide

section Fixtures

open OrderManager PositionManager WebSocketHandler

/-- An inert oracle: buys fail, balances are unavailable, sells fail, nothing
throws. -/
def envTriv : Env :=
  { now := 1000000, random := 7,
    buyResult := fun _ => { success := false, signature := none, error := some "no route" },
    balance := fun _ => none,
    sellResult := fun _ => { success := false, signature := none, error := some "no route" },
    raise := fun _ => none }

/-- Oracle whose balance query reports a zero token balance. -/
def envZeroBal : Env :=
  { envTriv with balance := fun _ => some 0 }

/-- A concrete active position. -/
def posP : Position :=
  { id := "tok", address := "tok", symbol := "DOG",
    entryPrice := 20000, currentPrice := 25000, highestPrice := 25000, lowestPrice := 20000,
    solInvested := 1, entryTime := 5, lastUpdated := 6,
    status := PositionStatus.ACTIVE, lfg := 1 }

/-- A pending partial (65%) LFG-sell order on `posP`, triggered because
`posP.lfg = 1`. -/
def ordLfg : Order :=
  { id := "tok_LFG_SELL_10_1_7", positionId := "tok", type := OrderType.LFG_SELL,
    status := OrderStatus.PENDING, sellRatio := 65,
    triggerType := TriggerType.LFG_FLAG, triggerCondition := TriggerCondition.EQ,
    triggerValue := 1, triggerDescription := "LFG trigger", createdAt := 10,
    triggeredAt := none, executedAt := none, signature := none, error := none,
    retryCount := 0, description := "LFG triggered sell" }

/-- A pending 100% take-profit on `posP`, triggered because the current
price 25000 is ≥ the 20000 target. -/
def ordFull : Order :=
  { ordLfg with id := "tok_TAKE_PROFIT_10_2_7", type := OrderType.TAKE_PROFIT, sellRatio := 100,
                triggerType := TriggerType.PRICE,
                triggerCondition := TriggerCondition.GTE, triggerValue := 20000 }

/-- A pending order whose trigger is false against `posP` (price ≥ 999999). -/
def ordSkip : Order :=
  { ordLfg with id := "tok_TAKE_PROFIT_10_3_7", type := OrderType.TAKE_PROFIT,
                triggerType := TriggerType.PRICE,
                triggerCondition := TriggerCondition.GTE, triggerValue := 999999 }

/-- An immediate order (trigger always true). -/
def ordImm : Order :=
  { ordLfg with id := "tok_TAKE_PROFIT_10_4_7", type := OrderType.TAKE_PROFIT, sellRatio := 100,
                triggerType := TriggerType.IMMEDIATE,
                triggerCondition := TriggerCondition.EQ, triggerValue := 0 }

/-- Store holding `posP` with the single pending partial LFG-sell. -/
def dbLfg : TradingDatabase :=
  { positions := [posP], orders := [ordLfg], tradeHistory := [] }

/-- Store holding `posP` with a single pending 100% sell. -/
def dbFull : TradingDatabase :=
  { positions := [posP], orders := [ordFull], tradeHistory := [] }

/-- Store holding `posP` and no orders. -/
def dbPosOnly : TradingDatabase :=
  { positions := [posP], orders := [], tradeHistory := [] }

/-- The empty store. -/
def dbEmpty : TradingDatabase :=
  { positions := [], orders := [], tradeHistory := [] }

/-- The default configuration values of `src/config/index.ts`. -/
def cfgW : TradingConfig :=
  { tradeEnabled := true, solInvestmentAmount := 1/100, maxPositions := 30,
    initialStopLoss := -65, doubleProfitThreshold := 100, doubleSellRatio := 50,
    targetMc1 := 200000, targetMc1Ratio := 50, targetMc2 := 900000, targetMc2Ratio := 100,
    lfgSellRatio := 65 }

/-- The default configuration with the risk limit set to zero. -/
def cfgZero : TradingConfig := { cfgW with maxPositions := 0 }

/-- A tick that passes the ingress guard. -/
def tokW : TokenData :=
  { a := "tok", s := "DOG", mc := 25000, mcNaN := false, ct := 900, hd := 300,
    pg := some (1/2), d_ts := "creator_close", s_brs := "burn", mt := "full",
    t10 := 1/5, etpr := some 1, rat := some 1, v1h := some 20000, t70_shr := some (1/10),
    kol := 5, lc_flg := 0, m_t := some "t", m_w := none, m_x := none }

/-- A tick with a non-positive price, rejected by the ingress guard. -/
def tokBad : TokenData := { tokW with mc := 0 }

/-- A handler state holding `posP`. -/
def stW : HandlerState :=
  { db := dbPosOnly, executing := [], orderCounter := 3, processing := [] }

end Fixtures

section Claims

open OrderManager PositionManager WebSocketHandler TradingDatabase

lemma checkCondition_iff (a : ℚ) (c : TriggerCondition) (t : ℚ) :
    checkCondition a c t = true ↔ compareSpec a c t := by
  cases c <;> simp [checkCondition, compareSpec]

/-- C7: the trigger predicate evaluates exactly as specified — absolute-price
compares the current price against the threshold, gain-percent compares
`(current − entry)/entry × 100` against the threshold, flag-equality holds
iff the position's flag equals the threshold, immediate is always true, and
the comparison semantics is GTE → `≥`, LTE → `≤`, EQ → exact equality. -/
theorem trigger_predicate_matches_spec (order : Order) (position : Position) :
    (order.triggerType = TriggerType.PRICE →
      (shouldTriggerOrder order position = true ↔
        compareSpec position.currentPrice order.triggerCondition order.triggerValue)) ∧
    (order.triggerType = TriggerType.GAIN_PERCENT →
      (shouldTriggerOrder order position = true ↔
        compareSpec ((position.currentPrice - position.entryPrice) / position.entryPrice * 100)
          order.triggerCondition order.triggerValue)) ∧
    (order.triggerType = TriggerType.LFG_FLAG →
      (shouldTriggerOrder order position = true ↔
        (position.lfg : ℚ) = order.triggerValue)) ∧
    (order.triggerType = TriggerType.IMMEDIATE →
      shouldTriggerOrder order position = true) := by
  refine ⟨fun h => ?_, fun h => ?_, fun h => ?_, fun h => ?_⟩ <;>
    simp [shouldTriggerOrder, h, checkCondition_iff, gainOf]

/-- Witness for C7: the immediate trigger on a concrete order fires. -/
theorem trigger_predicate_matches_spec_witness :
    ordImm.triggerType = TriggerType.IMMEDIATE ∧ shouldTriggerOrder ordImm posP = true :=
  ⟨rfl, (trigger_predicate_matches_spec ordImm posP).2.2.2 rfl⟩

/-- C10: a tick with a missing/empty address or symbol, a NaN price, or a
non-positive price is rejected by `processToken` with no effect on the
handler state (no position created or updated, no order evaluated). -/
theorem processToken_rejects_invalid_tick (cfg : TradingConfig) (env : Env)
    (st : HandlerState) (token : TokenData)
    (h : token.a = "" ∨ token.s = "" ∨ token.mcNaN = true ∨ token.mc ≤ 0) :
    processToken cfg env st token = st := by
  unfold processToken
  rw [if_pos h]

/-- Witness for C10: a zero-price tick leaves a concrete state untouched. -/
theorem processToken_rejects_invalid_tick_witness :
    (tokBad.a = "" ∨ tokBad.s = "" ∨ tokBad.mcNaN = true ∨ tokBad.mc ≤ 0) ∧
    processToken cfgW envTriv stW tokBad = stW :=
  ⟨by decide, processToken_rejects_invalid_tick cfgW envTriv stW tokBad (by decide)⟩

/-- C3: `executeOrder` on an order already in the in-flight set returns the
benign collision failure with the order, store and set untouched; on every
other call the order's id is gone from the in-flight set on return (the set
is restored), whether the dispatch succeeded, failed, or threw. -/
theorem executeOrder_mutual_exclusion (env : Env) (executing : List String)
    (db : TradingDatabase) (order : Order) (position : Position) :
    (order.id ∈ executing →
      executeOrder env executing db order position =
        { result := alreadyExecutingResult, order := order, db := db,
          executing := executing }) ∧
    (order.id ∉ executing →
      (executeOrder env executing db order position).executing = executing) := by
  constructor
  · intro h
    simp only [executeOrder, if_pos h]
  · intro h
    simp only [executeOrder, if_neg h]
    cases env.raise order.id with
    | some msg => simp [List.erase_cons_head]
    | none =>
        rw [apply_ite ExecOutcome.executing]
        simp [List.erase_cons_head]

/-- Witness for C3: a collision on a concrete in-flight order returns the
benign failure unchanged, and a fresh call restores the empty set. -/
theorem executeOrder_mutual_exclusion_witness :
    (ordLfg.id ∈ [ordLfg.id] ∧
      executeOrder envTriv [ordLfg.id] dbLfg ordLfg posP =
        { result := alreadyExecutingResult, order := ordLfg, db := dbLfg,
          executing := [ordLfg.id] }) ∧
    (ordLfg.id ∉ ([] : List String) ∧
      (executeOrder envTriv [] dbLfg ordLfg posP).executing = []) :=
  ⟨⟨by decide,
    (executeOrder_mutual_exclusion envTriv [ordLfg.id] dbLfg ordLfg posP).1 (by decide)⟩,
   ⟨by decide,
    (executeOrder_mutual_exclusion envTriv [] dbLfg ordLfg posP).2 (by decide)⟩⟩

/-- C1: the code-level outcome of a zero balance during a sell execution.
The execution returns the distinguished zero-balance result (an implicit
success), but the evaluate-and-execute pass tests for it with
`!result.success && result.error === noBalanceMsg`, which the
`success: true` sentinel can never satisfy; so a pending partial (65%)
sell over a zero balance leaves the pass without a close signal, while the
same zero balance under a 100% order closes only through the generic
100%-ratio branch. -/
theorem zero_balance_partial_sell_leaves_position_open :
    executeSellOrder envZeroBal ordLfg posP =
      { success := true, signature := none, error := some noBalanceMsg } ∧
    (checkAndExecuteOrders envZeroBal [] dbLfg posP).1 = false ∧
    (checkAndExecuteOrders envZeroBal [] dbFull posP).1 = true := by
  refine ⟨by decide, by decide, by decide⟩

lemma updateOrder_tradeHistory (db : TradingDatabase) (o : Order) :
    (db.updateOrder o).tradeHistory = db.tradeHistory := rfl

lemma executeOrder_mem (env : Env) (executing : List String) (db : TradingDatabase)
    (order : Order) (position : Position) (hmem : order.id ∈ executing) :
    executeOrder env executing db order position =
      { result := alreadyExecutingResult, order := order, db := db,
        executing := executing } := by
  simp only [executeOrder, if_pos hmem]

lemma executeOrder_raise (env : Env) (executing : List String) (db : TradingDatabase)
    (order : Order) (position : Position) (msg : String) (hmem : order.id ∉ executing)
    (hraise : env.raise order.id = some msg) :
    executeOrder env executing db order position =
      { result := { success := false, signature := none, error := some msg },
        order := { order with
                   status := OrderStatus.FAILED,
                   error := some msg,
                   retryCount := order.retryCount + 1 },
        db := (db.updateOrder { order with status := OrderStatus.EXECUTING }).updateOrder
              { order with
                status := OrderStatus.FAILED,
                error := some msg,
                retryCount := order.retryCount + 1 },
        executing := executing } := by
  simp only [executeOrder, if_neg hmem, hraise]
  simp [List.erase_cons_head]

lemma executeOrder_eq (env : Env) (executing : List String) (db : TradingDatabase)
    (order : Order) (position : Position) (hmem : order.id ∉ executing)
    (hraise : env.raise order.id = none) :
    executeOrder env executing db order position =
      (if (dispatchResult env order position).success then
        { result := dispatchResult env order position,
          order := { order with
                     status := OrderStatus.COMPLETED,
                     executedAt := some env.now,
                     signature := (dispatchResult env order position).signature },
          db := (recordTradeHistory env
                  { order with
                    status := OrderStatus.COMPLETED,
                    executedAt := some env.now,
                    signature := (dispatchResult env order position).signature }
                  position (dispatchResult env order position)
                  (db.updateOrder { order with status := OrderStatus.EXECUTING })).updateOrder
                { order with
                  status := OrderStatus.COMPLETED,
                  executedAt := some env.now,
                  signature := (dispatchResult env order position).signature },
          executing := executing }
      else
        { result := dispatchResult env order position,
          order := { order with
                     status := OrderStatus.FAILED,
                     error := (dispatchResult env order position).error,
                     retryCount := order.retryCount + 1 },
          db := (db.updateOrder { order with status := OrderStatus.EXECUTING }).updateOrder
                { order with
                  status := OrderStatus.FAILED,
                  error := (dispatchResult env order position).error,
                  retryCount := order.retryCount + 1 },
          executing := executing }) := by
  simp only [executeOrder, if_neg hmem, hraise, dispatchResult]
  simp [List.erase_cons_head]

/-- C8: a trade-history row is appended by `executeOrder` iff the returned
result is a success carrying a (nonempty) transaction signature and the
order is not a buy order; the appended row is the one built by
`recordTradeHistory`.  In particular the zero-balance sentinel and simulated
trades (success without signature) and all buy orders append nothing. -/
theorem trade_history_appended_iff (env : Env) (executing : List String)
    (db : TradingDatabase) (order : Order) (position : Position) :
    (executeOrder env executing db order position).db.tradeHistory =
      (if (executeOrder env executing db order position).result.success = true ∧
          hasSignature (executeOrder env executing db order position).result = true ∧
          order.type ≠ OrderType.MARKET_BUY
       then db.tradeHistory ++
         [mkTradeRecord env order position (executeOrder env executing db order position).result]
       else db.tradeHistory) := by
  by_cases hmem : order.id ∈ executing
  · rw [executeOrder_mem env executing db order position hmem]
    simp [alreadyExecutingResult]
  · cases hraise : env.raise order.id with
    | some msg =>
        rw [executeOrder_raise env executing db order position msg hmem hraise]
        simp [updateOrder_tradeHistory]
    | none =>
        rw [executeOrder_eq env executing db order position hmem hraise]
        by_cases hs : (dispatchResult env order position).success = true
        · rw [if_pos hs]
          by_cases hbuy : order.type = OrderType.MARKET_BUY
          · simp [recordTradeHistory, hbuy, updateOrder_tradeHistory]
          · by_cases hsig : hasSignature (dispatchResult env order position) = true
            · simp [recordTradeHistory, hbuy, hsig, hs, updateOrder_tradeHistory,
                TradingDatabase.insertTradeHistory, mkTradeRecord]
            · have hsig' : hasSignature (dispatchResult env order position) = false := by
                cases hx : hasSignature (dispatchResult env order position)
                · rfl
                · exact absurd hx hsig
              simp [recordTradeHistory, hbuy, hsig', updateOrder_tradeHistory]
        · rw [if_neg hs]
          have hs' : (dispatchResult env order position).success = false := by
            cases hx : (dispatchResult env order position).success
            · rfl
            · exact absurd hx hs
          simp [hs', updateOrder_tradeHistory]

lemma checkOrdersLoop_cons (env : Env) (position : Position) (o : Order) (rest : List Order)
    (ex : List String) (db : TradingDatabase) :
    ∀ out, out = executeOrder env ex
        (db.updateOrder { o with status := OrderStatus.TRIGGERED, triggeredAt := some env.now })
        { o with status := OrderStatus.TRIGGERED, triggeredAt := some env.now } position →
    checkOrdersLoop env position (o :: rest) ex db =
      (if shouldTriggerOrder o position = true then
        (if out.result.success = false ∧ out.result.error = some noBalanceMsg then
          (true, out.db, out.executing)
         else if out.result.success = true ∧ (100 : ℚ) ≤ o.sellRatio then
          (true, out.db, out.executing)
         else checkOrdersLoop env position rest out.executing out.db)
       else checkOrdersLoop env position rest ex db) := by
  intro out hout
  subst hout
  rfl

lemma dispatchResult_sell_zero (env : Env) (order : Order) (position : Position)
    (hty : order.type ≠ OrderType.MARKET_BUY) (hbal : env.balance order.id = some 0) :
    dispatchResult env order position =
      { success := true, signature := none, error := some noBalanceMsg } := by
  simp [dispatchResult, hty, executeSellOrder, hbal]

lemma dispatchResult_sell_balNone (env : Env) (order : Order) (position : Position)
    (hty : order.type ≠ OrderType.MARKET_BUY) (hbal : env.balance order.id = none) :
    dispatchResult env order position = env.sellResult order.id := by
  simp [dispatchResult, hty, executeSellOrder, hbal]

lemma dispatchResult_sell_balSucc (env : Env) (order : Order) (position : Position)
    (hty : order.type ≠ OrderType.MARKET_BUY) (n : ℕ)
    (hbal : env.balance order.id = some (n + 1)) :
    dispatchResult env order position = env.sellResult order.id := by
  simp [dispatchResult, hty, executeSellOrder, hbal]

lemma checkOrdersLoop_no_close (env : Env) (position : Position) :
    ∀ l : List Order,
      (∀ o ∈ l, o.sellRatio < 100 ∧ env.raise o.id = none ∧
        o.type ≠ OrderType.MARKET_BUY ∧
        (env.balance o.id = some 0 ∨ (env.sellResult o.id).success = true)) →
      ∀ (ex : List String) (db : TradingDatabase),
        (checkOrdersLoop env position l ex db).1 = false := by
  intro l
  induction l with
  | nil => intro _ ex db; rfl
  | cons o rest ih =>
      intro h ex db
      obtain ⟨hr, hraise, hty, hbal⟩ := h o (List.mem_cons_self o rest)
      have hrest := fun o' ho' => h o' (List.mem_cons_of_mem o ho')
      have hnotle : ¬ ((100 : ℚ) ≤ o.sellRatio) := not_le.mpr hr
      rw [checkOrdersLoop_cons env position o rest ex db _ rfl]
      by_cases htrig : shouldTriggerOrder o position = true
      · rw [if_pos htrig]
        set o₁ : Order := { o with status := OrderStatus.TRIGGERED, triggeredAt := some env.now }
          with ho₁
        have hty₁ : o₁.type ≠ OrderType.MARKET_BUY := hty
        by_cases hmem : o₁.id ∈ ex
        · rw [executeOrder_mem env ex _ o₁ position hmem]
          simp only [alreadyExecutingResult, noBalanceMsg]
          rw [if_neg (by simp)]
          rw [if_neg (by simp)]
          exact ih hrest ex _
        · have hraise₁ : env.raise o₁.id = none := hraise
          have hbal₁ : env.balance o₁.id = some 0 ∨ (env.sellResult o₁.id).success = true := hbal
          rw [executeOrder_eq env ex _ o₁ position hmem hraise₁]
          have hsucc : (dispatchResult env o₁ position).success = true := by
            rcases hbal₁ with hb | hb
            · rw [dispatchResult_sell_zero env o₁ position hty₁ hb]
            · cases hb2 : env.balance o₁.id with
              | none =>
                  rw [dispatchResult_sell_balNone env o₁ position hty₁ hb2]
                  exact hb
              | some n =>
                  cases n with
                  | zero => rw [dispatchResult_sell_zero env o₁ position hty₁ hb2]
                  | succ m =>
                      rw [dispatchResult_sell_balSucc env o₁ position hty₁ m hb2]
                      exact hb
          rw [if_pos hsucc]
          have hnotle₁ : ¬ ((100 : ℚ) ≤ o₁.sellRatio) := hnotle
          rw [if_neg (by simp [hsucc])]
          rw [if_neg (by intro hc; exact hnotle₁ hc.2)]
          exact ih hrest _ _
      · rw [if_neg htrig]
        exact ih hrest ex db

/-- C6: in one evaluate-and-execute pass, an order whose trigger is false is
skipped (the loop continues with the store untouched, the order staying
PENDING); a triggered order that executes successfully with sell ratio ≥ 100
halts the loop with the position-close signal; a triggered order that
executes successfully with sell ratio < 100 lets the loop continue with the
remaining pending orders; and a pass over only partial (< 100) sell-type
orders that execute successfully (including over a zero balance) returns no
close signal, so several partial sells may fire in one tick. -/
theorem evaluate_and_execute_pass (env : Env) (position : Position) (order : Order)
    (rest : List Order) (executing : List String) (db : TradingDatabase) :
    (checkAndExecuteOrders env executing db position =
       checkOrdersLoop env position
         ((db.getPositionOrders position.id).filter fun o => o.status = OrderStatus.PENDING)
         executing db) ∧
    (shouldTriggerOrder order position = false →
       checkOrdersLoop env position (order :: rest) executing db =
         checkOrdersLoop env position rest executing db) ∧
    (∀ out, out = executeOrder env executing
         (db.updateOrder { order with
                           status := OrderStatus.TRIGGERED,
                           triggeredAt := some env.now })
         { order with status := OrderStatus.TRIGGERED, triggeredAt := some env.now } position →
       shouldTriggerOrder order position = true →
       (out.result.success = true → (100 : ℚ) ≤ order.sellRatio →
          checkOrdersLoop env position (order :: rest) executing db =
            (true, out.db, out.executing)) ∧
       (out.result.success = true → order.sellRatio < 100 →
          checkOrdersLoop env position (order :: rest) executing db =
            checkOrdersLoop env position rest out.executing out.db)) ∧
    ((∀ o ∈ order :: rest, o.sellRatio < 100 ∧ env.raise o.id = none ∧
        o.type ≠ OrderType.MARKET_BUY ∧
        (env.balance o.id = some 0 ∨ (env.sellResult o.id).success = true)) →
      (checkOrdersLoop env position (order :: rest) executing db).1 = false) := by
  refine ⟨rfl, ?_, ?_, ?_⟩
  · intro h
    rw [checkOrdersLoop_cons env position order rest executing db _ rfl]
    rw [if_neg (by simp [h])]
  · intro out hout htrig
    constructor
    · intro hs hge
      rw [checkOrdersLoop_cons env position order rest executing db out hout, if_pos htrig]
      rw [if_neg (by simp [hs])]
      rw [if_pos ⟨hs, hge⟩]
    · intro hs hlt
      rw [checkOrdersLoop_cons env position order rest executing db out hout, if_pos htrig]
      rw [if_neg (by simp [hs])]
      rw [if_neg (fun hc => absurd hc.2 (not_le.mpr hlt))]
  · intro h
    exact checkOrdersLoop_no_close env position (order :: rest) h executing db

/-- Witness for C6: the zero-balance partial LFG-sell pass over `posP`
returns no close signal. -/
theorem evaluate_and_execute_pass_witness :
    (∀ o ∈ [ordLfg], o.sellRatio < 100 ∧ envZeroBal.raise o.id = none ∧
        o.type ≠ OrderType.MARKET_BUY ∧
        (envZeroBal.balance o.id = some 0 ∨ (envZeroBal.sellResult o.id).success = true)) ∧
    (checkOrdersLoop envZeroBal posP [ordLfg] [] dbLfg).1 = false :=
  ⟨by decide,
   (evaluate_and_execute_pass envZeroBal posP ordLfg [] [] dbLfg).2.2.2 (by decide)⟩

lemma createOrder_positions (env : Env) (db : TradingDatabase) (counter : ℕ)
    (params : OrderCreationParams) :
    ((OrderManager.createOrder env db counter params).2.1).positions = db.positions := rfl

lemma createDefaultOrders_positions (cfg : TradingConfig) (env : Env) (db : TradingDatabase)
    (counter : ℕ) (position : Position) :
    ((createDefaultOrders cfg env db counter position).1).positions = db.positions := by
  unfold createDefaultOrders
  dsimp only
  split_ifs <;> rfl

lemma find?_eq_none_addr {db : TradingDatabase} {a : String}
    (h : db.getPosition a = none) : ∀ x ∈ db.positions, x.address ≠ a := by
  intro x hx
  have := List.find?_eq_none.mp h x hx
  simpa using this

/-- C2: if the guards passed and `createPosition` nevertheless returned none
(the opening buy failed), the just-created position row and its orders were
rolled back: no position row for the instrument address and no order for the
instrument id remain in the store. -/
theorem create_position_rollback (cfg : TradingConfig) (env : Env) (db : TradingDatabase)
    (counter : ℕ) (token : TokenData) (sol : ℚ)
    (hcount : db.getPositionCount < cfg.maxPositions)
    (hdup : db.getPosition token.a = none)
    (hfail : (createPosition cfg env db counter token sol).1 = none) :
    ((createPosition cfg env db counter token sol).2.1).getPosition token.a = none ∧
    ∀ o ∈ ((createPosition cfg env db counter token sol).2.1).orders,
      o.positionId ≠ token.a := by
  unfold createPosition at hfail ⊢
  rw [if_neg (not_le.mpr hcount)] at hfail ⊢
  rw [hdup] at hfail ⊢
  dsimp only at hfail ⊢
  by_cases hbuy : (env.buyResult (newPosition env token sol)).success = true
  · rw [if_pos hbuy] at hfail
    exact absurd hfail (by simp)
  · rw [if_neg hbuy] at hfail ⊢
    constructor
    · apply List.find?_eq_none.mpr
      intro x hx
      simp only [TradingDatabase.deletePosition, createDefaultOrders_positions,
        TradingDatabase.insertPosition, List.mem_filter, List.mem_append,
        List.mem_singleton, decide_eq_true_eq] at hx
      obtain ⟨hmem | hP, hid⟩ := hx
      · simpa using fun hc => find?_eq_none_addr hdup x hmem hc
      · exact absurd (by rw [hP]) hid
    · intro o ho
      simp only [TradingDatabase.deletePosition, List.mem_filter,
        decide_eq_true_eq] at ho
      exact ho.2

/-- Witness for C2: with the default configuration, an empty store and a
failing opening buy, the created position and orders are rolled back. -/
theorem create_position_rollback_witness :
    dbEmpty.getPositionCount < cfgW.maxPositions ∧
    dbEmpty.getPosition tokW.a = none ∧
    (createPosition cfgW envTriv dbEmpty 0 tokW 1).1 = none ∧
    ((createPosition cfgW envTriv dbEmpty 0 tokW 1).2.1).getPosition tokW.a = none ∧
    (∀ o ∈ ((createPosition cfgW envTriv dbEmpty 0 tokW 1).2.1).orders,
      o.positionId ≠ tokW.a) :=
  ⟨by decide, by decide, by decide,
   (create_position_rollback cfgW envTriv dbEmpty 0 tokW 1 (by decide) (by decide)
     (by decide)).1,
   (create_position_rollback cfgW envTriv dbEmpty 0 tokW 1 (by decide) (by decide)
     (by decide)).2⟩

lemma getPositionCount_eq (db : TradingDatabase) :
    db.getPositionCount = db.positions.countP fun q => q.status = PositionStatus.ACTIVE := by
  simp [TradingDatabase.getPositionCount, List.countP_eq_length_filter]

lemma createPosition_store_cases (cfg : TradingConfig) (env : Env) (db : TradingDatabase)
    (counter : ℕ) (token : TokenData) (sol : ℚ) :
    (createPosition cfg env db counter token sol).2.1 = db ∨
    (db.getPosition token.a = none ∧ db.getPositionCount < cfg.maxPositions ∧
     ((createPosition cfg env db counter token sol).2.1.positions =
        db.positions ++ [newPosition env token sol] ∨
      (createPosition cfg env db counter token sol).2.1.positions =
        (db.positions ++ [newPosition env token sol]).filter
          fun q => q.id ≠ (newPosition env token sol).id)) := by
  unfold createPosition
  by_cases h1 : cfg.maxPositions ≤ db.getPositionCount
  · rw [if_pos h1]
    exact Or.inl rfl
  · rw [if_neg h1]
    cases hq : db.getPosition token.a with
    | some q => exact Or.inl rfl
    | none =>
        dsimp only
        refine Or.inr ⟨rfl, not_le.mp h1, ?_⟩
        by_cases hbuy : (env.buyResult (newPosition env token sol)).success = true
        · rw [if_pos hbuy]
          left
          simp [createDefaultOrders_positions, TradingDatabase.insertPosition]
        · rw [if_neg hbuy]
          right
          simp [TradingDatabase.deletePosition, createDefaultOrders_positions,
            TradingDatabase.insertPosition]

lemma countP_addr_zero_of_none {db : TradingDatabase} {a : String}
    (h : db.getPosition a = none) :
    (db.positions.countP fun q => q.address = a) = 0 := by
  rw [List.countP_eq_zero]
  intro x hx
  simpa using find?_eq_none_addr h x hx

/-- C4: the creation guards are checked in order and short-circuit — a full
risk book or an existing position for the instrument makes `createPosition`
return none with the store and counter untouched; consequently creation
preserves both the at-most-one-position-per-address invariant and the
active-position-count bound. -/
theorem create_position_guards (cfg : TradingConfig) (env : Env) (db : TradingDatabase)
    (counter : ℕ) (token : TokenData) (sol : ℚ) :
    (cfg.maxPositions ≤ db.getPositionCount →
       createPosition cfg env db counter token sol = (none, db, counter)) ∧
    (∀ q, db.getPositionCount < cfg.maxPositions → db.getPosition token.a = some q →
       createPosition cfg env db counter token sol = (none, db, counter)) ∧
    (AtMostOnePerAddress db →
       AtMostOnePerAddress (createPosition cfg env db counter token sol).2.1) ∧
    (db.getPositionCount ≤ cfg.maxPositions →
       ((createPosition cfg env db counter token sol).2.1).getPositionCount ≤
         cfg.maxPositions) := by
  refine ⟨?_, ?_, ?_, ?_⟩
  · intro h
    unfold createPosition
    rw [if_pos h]
  · intro q h hq
    unfold createPosition
    rw [if_neg (not_le.mpr h), hq]
  · intro hA a
    rcases createPosition_store_cases cfg env db counter token sol with hdb | ⟨hnone, _, hpos⟩
    · rw [hdb]
      exact hA a
    · have hbound : ((db.positions ++ [newPosition env token sol]).countP
          fun q => q.address = a) ≤ 1 := by
        rw [List.countP_append]
        by_cases ha : a = token.a
        · rw [ha]
          have h0 : (db.positions.countP fun q => q.address = token.a) = 0 :=
            countP_addr_zero_of_none hnone
          simp [h0, newPosition, List.countP_singleton]
        · have h1 : (([newPosition env token sol]).countP fun q => q.address = a) = 0 := by
            simp only [List.countP_singleton, newPosition]
            simp only [decide_eq_true_eq]
            rw [if_neg (fun hc => ha hc.symm)]
          rw [h1]
          simpa using hA a
      rcases hpos with hpos | hpos
      · rw [hpos]
        exact hbound
      · rw [hpos]
        exact le_trans ((List.filter_sublist _).countP_le _) hbound
  · intro h
    rcases createPosition_store_cases cfg env db counter token sol with hdb | ⟨_, hlt, hpos⟩
    · rw [hdb]
      exact h
    · have hbound : ((db.positions ++ [newPosition env token sol]).countP
          fun q => q.status = PositionStatus.ACTIVE) ≤ cfg.maxPositions := by
        rw [List.countP_append]
        have hone : (([newPosition env token sol]).countP
            fun q => q.status = PositionStatus.ACTIVE) = 1 := by
          simp [List.countP_singleton, newPosition]
        rw [hone]
        rw [getPositionCount_eq] at hlt
        omega
      rcases hpos with hpos | hpos
      · rw [getPositionCount_eq, hpos]
        exact hbound
      · rw [getPositionCount_eq, hpos]
        exact le_trans ((List.filter_sublist _).countP_le _) hbound

/-- Witness for C4: with the risk limit set to zero, creation is rejected
with no write. -/
theorem create_position_guards_witness :
    cfgZero.maxPositions ≤ dbEmpty.getPositionCount ∧
    createPosition cfgZero envTriv dbEmpty 0 tokW 1 = (none, dbEmpty, 0) :=
  ⟨by decide,
   (create_position_guards cfgZero envTriv dbEmpty 0 tokW 1).1 (by decide)⟩

lemma updateOrder_positions (db : TradingDatabase) (o : Order) :
    (db.updateOrder o).positions = db.positions := rfl

lemma recordTradeHistory_positions (env : Env) (o : Order) (p : Position)
    (r : OrderExecutionResult) (db : TradingDatabase) :
    (recordTradeHistory env o p r db).positions = db.positions := by
  unfold recordTradeHistory
  split <;> rfl

lemma executeOrder_positions (env : Env) (ex : List String) (db : TradingDatabase)
    (o : Order) (p : Position) :
    (executeOrder env ex db o p).db.positions = db.positions := by
  by_cases hmem : o.id ∈ ex
  · rw [executeOrder_mem env ex db o p hmem]
  · cases hraise : env.raise o.id with
    | some msg =>
        rw [executeOrder_raise env ex db o p msg hmem hraise]
        rfl
    | none =>
        rw [executeOrder_eq env ex db o p hmem hraise]
        by_cases hs : (dispatchResult env o p).success = true
        · rw [if_pos hs]
          simp [updateOrder_positions, recordTradeHistory_positions]
        · rw [if_neg hs]
          rfl

lemma checkOrdersLoop_positions (env : Env) (position : Position) :
    ∀ (l : List Order) (ex : List String) (db : TradingDatabase),
      ((checkOrdersLoop env position l ex db).2.1).positions = db.positions := by
  intro l
  induction l with
  | nil => intro ex db; rfl
  | cons o rest ih =>
      intro ex db
      rw [checkOrdersLoop_cons env position o rest ex db _ rfl]
      by_cases htrig : shouldTriggerOrder o position = true
      · rw [if_pos htrig]
        set o₁ : Order := { o with status := OrderStatus.TRIGGERED, triggeredAt := some env.now }
        set out := executeOrder env ex (db.updateOrder o₁) o₁ position with hout
        have hpos : out.db.positions = db.positions := by
          rw [hout, executeOrder_positions]
          rfl
        by_cases h1 : out.result.success = false ∧ out.result.error = some noBalanceMsg
        · rw [if_pos h1]
          exact hpos
        · rw [if_neg h1]
          by_cases h2 : out.result.success = true ∧ (100 : ℚ) ≤ o.sellRatio
          · rw [if_pos h2]
            exact hpos
          · rw [if_neg h2]
            rw [ih out.executing out.db]
            exact hpos
      · rw [if_neg htrig]
        exact ih ex db

lemma checkAndExecuteOrders_positions (env : Env) (ex : List String) (db : TradingDatabase)
    (position : Position) :
    ((checkAndExecuteOrders env ex db position).2.1).positions = db.positions :=
  checkOrdersLoop_positions env position _ ex db

lemma getPosition_congr {db₁ db₂ : TradingDatabase} (h : db₁.positions = db₂.positions)
    (a : String) : db₁.getPosition a = db₂.getPosition a := by
  unfold TradingDatabase.getPosition
  rw [h]

lemma find?_addr_map_update (l : List Position) (address : String) (p : Position)
    (f : Position → Position) (hf : ∀ q, (f q).address = q.address)
    (hp : l.find? (fun q => q.address = address) = some p) :
    (l.map f).find? (fun q => q.address = address) = some (f p) := by
  induction l with
  | nil => simp at hp
  | cons x xs ih =>
      cases hx : (decide (x.address = address)) with
      | true =>
          have hfx : (decide ((f x).address = address)) = true := by rw [hf x]; exact hx
          rw [List.map_cons]
          simp only [List.find?, hx, hfx] at hp ⊢
          injection hp with hp
          rw [hp]
      | false =>
          have hfx : (decide ((f x).address = address)) = false := by rw [hf x]; exact hx
          rw [List.map_cons]
          simp only [List.find?, hx, hfx] at hp ⊢
          exact ih hp

lemma db_updatePosition_getPosition (db : TradingDatabase) (address : String) (p p₁ : Position)
    (hp : db.getPosition address = some p) (hid : p₁.id = p.id) :
    (db.updatePosition p₁).getPosition address =
      some { p with
             currentPrice := p₁.currentPrice, highestPrice := p₁.highestPrice,
             lowestPrice := p₁.lowestPrice, lastUpdated := p₁.lastUpdated,
             lfg := p₁.lfg } := by
  unfold TradingDatabase.getPosition at hp
  unfold TradingDatabase.getPosition TradingDatabase.updatePosition
  dsimp only
  have hmap := find?_addr_map_update db.positions address p
    (fun q => if q.id = p₁.id then
        { q with
          currentPrice := p₁.currentPrice, highestPrice := p₁.highestPrice,
          lowestPrice := p₁.lowestPrice, lastUpdated := p₁.lastUpdated, lfg := p₁.lfg }
      else q)
    (fun q => by by_cases h : q.id = p₁.id <;> simp [h]) hp
  rw [hmap]
  dsimp only
  rw [if_pos hid.symm]

lemma IdEqAddress_db_updatePosition (db : TradingDatabase) (p : Position)
    (h : IdEqAddress db) : IdEqAddress (db.updatePosition p) := by
  intro q hq
  simp only [TradingDatabase.updatePosition] at hq
  obtain ⟨x, hx, rfl⟩ := List.mem_map.mp hq
  by_cases hxid : x.id = p.id
  · simp only [if_pos hxid]
    simpa using h x hx
  · simp only [if_neg hxid]
    exact h x hx

lemma IdEqAddress_of_positions_eq {db₁ db₂ : TradingDatabase}
    (h : db₁.positions = db₂.positions) (h₂ : IdEqAddress db₂) : IdEqAddress db₁ := by
  intro q hq
  exact h₂ q (h ▸ hq)

lemma IdEqAddress_deletePosition (db : TradingDatabase) (pid : String)
    (h : IdEqAddress db) : IdEqAddress (db.deletePosition pid) := by
  intro q hq
  exact h q (List.mem_of_mem_filter hq)

lemma IdEqAddress_closePosition (db : TradingDatabase) (a : String)
    (h : IdEqAddress db) : IdEqAddress (PositionManager.closePosition db a) := by
  unfold PositionManager.closePosition
  cases hq : db.getPosition a with
  | none => exact h
  | some p =>
      apply IdEqAddress_deletePosition
      intro q hq2
      exact h q hq2

lemma closePosition_getPosition (db : TradingDatabase) (address : String)
    (hid : IdEqAddress db) :
    (PositionManager.closePosition db address).getPosition address = none := by
  unfold PositionManager.closePosition
  cases hq : db.getPosition address with
  | none => exact hq
  | some p =>
      have hpadd : p.address = address := by
        have := List.find?_some hq
        simpa using this
      have hpid : p.id = address := by
        rw [hid p (List.mem_of_find?_eq_some hq), hpadd]
      apply List.find?_eq_none.mpr
      intro x hx
      simp only [TradingDatabase.deletePosition, List.mem_filter, decide_eq_true_eq] at hx
      obtain ⟨hxmem, hxid⟩ := hx
      have hxmem' : x ∈ db.positions := hxmem
      simp only [decide_eq_true_eq]
      intro hc
      exact hxid ((hid x hxmem').trans (hc.trans hpid.symm))

lemma updatePosition_absent (env : Env) (ex : List String) (db : TradingDatabase)
    (address : String) (price : ℚ) (lfg : ℕ) (h : db.getPosition address = none) :
    PositionManager.updatePosition env ex db address price lfg = (none, db, ex) := by
  unfold PositionManager.updatePosition
  rw [h]

lemma updatePosition_found (env : Env) (ex : List String) (db : TradingDatabase)
    (address : String) (price : ℚ) (lfg : ℕ) (p : Position)
    (hid : IdEqAddress db) (hp : db.getPosition address = some p) :
    IdEqAddress (PositionManager.updatePosition env ex db address price lfg).2.1 ∧
    ((PositionManager.updatePosition env ex db address price lfg).2.1.getPosition address =
        none ∨
     (PositionManager.updatePosition env ex db address price lfg).2.1.getPosition address =
        some (updatedPosition env p price lfg)) := by
  unfold PositionManager.updatePosition
  rw [hp]
  dsimp only
  have hid₁ : IdEqAddress (db.updatePosition (updatedPosition env p price lfg)) :=
    IdEqAddress_db_updatePosition db _ hid
  have hpos :
      (checkAndExecuteOrders env ex (db.updatePosition (updatedPosition env p price lfg))
        (updatedPosition env p price lfg)).2.1.positions =
      (db.updatePosition (updatedPosition env p price lfg)).positions :=
    checkAndExecuteOrders_positions env ex _ _
  have hidr : IdEqAddress
      (checkAndExecuteOrders env ex (db.updatePosition (updatedPosition env p price lfg))
        (updatedPosition env p price lfg)).2.1 :=
    IdEqAddress_of_positions_eq hpos hid₁
  have hget :
      (checkAndExecuteOrders env ex (db.updatePosition (updatedPosition env p price lfg))
        (updatedPosition env p price lfg)).2.1.getPosition address =
      some (updatedPosition env p price lfg) := by
    rw [getPosition_congr hpos address]
    rw [db_updatePosition_getPosition db address p (updatedPosition env p price lfg) hp rfl]
    rfl
  by_cases hclose :
      (checkAndExecuteOrders env ex (db.updatePosition (updatedPosition env p price lfg))
        (updatedPosition env p price lfg)).1 = true
  · rw [if_pos hclose]
    exact ⟨IdEqAddress_closePosition _ address hidr,
           Or.inl (closePosition_getPosition _ address hidr)⟩
  · rw [if_neg hclose]
    exact ⟨hidr, Or.inr hget⟩

lemma applyUpdates_absent (env : Env) (address : String) :
    ∀ (updates : List (ℚ × ℕ)) (db : TradingDatabase) (ex : List String),
      db.getPosition address = none →
      applyUpdates env address updates (db, ex) = (db, ex) := by
  intro updates
  induction updates with
  | nil => intro db ex _; rfl
  | cons u rest ih =>
      intro db ex h
      simp only [applyUpdates]
      rw [updatePosition_absent env ex db address u.1 u.2 h]
      exact ih db ex h

lemma applyUpdates_mono (env : Env) (address : String) :
    ∀ (updates : List (ℚ × ℕ)) (db : TradingDatabase) (ex : List String) (p : Position),
      IdEqAddress db → db.getPosition address = some p →
      ∀ q, (applyUpdates env address updates (db, ex)).1.getPosition address = some q →
        p.highestPrice ≤ q.highestPrice ∧ q.lowestPrice ≤ p.lowestPrice := by
  intro updates
  induction updates with
  | nil =>
      intro db ex p _ hp q hq
      have : p = q := by
        rw [show (applyUpdates env address [] (db, ex)).1 = db from rfl] at hq
        rw [hp] at hq
        injection hq
      rw [this]
      exact ⟨le_refl _, le_refl _⟩
  | cons u rest ih =>
      intro db ex p hid hp q hq
      obtain ⟨hid', hcase⟩ := updatePosition_found env ex db address u.1 u.2 p hid hp
      simp only [applyUpdates] at hq
      rcases hcase with hnone | hsome
      · rw [applyUpdates_absent env address rest _ _ hnone] at hq
        rw [hnone] at hq
        cases hq
      · have hstep := ih _ _ (updatedPosition env p u.1 u.2) hid' hsome q hq
        refine ⟨le_trans (le_max_left _ _) hstep.1, le_trans hstep.2 (min_le_left _ _)⟩

lemma updatePosition_result_some (env : Env) (ex : List String) (db : TradingDatabase)
    (address : String) (price : ℚ) (lfg : ℕ) (p p' : Position)
    (hp : db.getPosition address = some p)
    (hres : (PositionManager.updatePosition env ex db address price lfg).1 = some p') :
    p' = updatedPosition env p price lfg := by
  unfold PositionManager.updatePosition at hres
  rw [hp] at hres
  dsimp only at hres
  by_cases hclose : (checkAndExecuteOrders env ex
      (db.updatePosition (updatedPosition env p price lfg))
      (updatedPosition env p price lfg)).1 = true
  · rw [if_pos hclose] at hres
    cases hres
  · rw [if_neg hclose] at hres
    injection hres with h
    exact h.symm

/-- C5: after each `updatePosition` the stored/returned high-water mark is
the max of the previous one and the new price and the low-water mark the min
of the previous one and the new price; hence over any sequence of updates on
one position `highestPrice` is non-decreasing and `lowestPrice`
non-increasing. -/
theorem monotonic_extrema :
    (∀ (env : Env) (ex : List String) (db : TradingDatabase) (address : String)
       (price : ℚ) (lfg : ℕ) (p p' : Position),
       db.getPosition address = some p →
       (PositionManager.updatePosition env ex db address price lfg).1 = some p' →
       p'.highestPrice = max p.highestPrice price ∧
       p'.lowestPrice = min p.lowestPrice price ∧
       p.highestPrice ≤ p'.highestPrice ∧ p'.lowestPrice ≤ p.lowestPrice) ∧
    (∀ (env : Env) (address : String) (updates : List (ℚ × ℕ)) (db : TradingDatabase)
       (ex : List String) (p q : Position),
       IdEqAddress db → db.getPosition address = some p →
       (applyUpdates env address updates (db, ex)).1.getPosition address = some q →
       p.highestPrice ≤ q.highestPrice ∧ q.lowestPrice ≤ p.lowestPrice) := by
  constructor
  · intro env ex db address price lfg p p' hp hres
    rw [updatePosition_result_some env ex db address price lfg p p' hp hres]
    exact ⟨rfl, rfl, le_max_left _ _, min_le_left _ _⟩
  · intro env address updates db ex p q hid hp hq
    exact applyUpdates_mono env address updates db ex p hid hp q hq

/-- Witness for C5: a concrete update from price 25000 to 30000 raises the
high-water mark to 30000 and keeps the low-water mark, and the empty update
sequence preserves the extrema bounds. -/
theorem monotonic_extrema_witness :
    (dbPosOnly.getPosition "tok" = some posP ∧
     (PositionManager.updatePosition envTriv [] dbPosOnly "tok" 30000 1).1 =
       some (updatedPosition envTriv posP 30000 1) ∧
     ((updatedPosition envTriv posP 30000 1).highestPrice = max posP.highestPrice 30000 ∧
      (updatedPosition envTriv posP 30000 1).lowestPrice = min posP.lowestPrice 30000 ∧
      posP.highestPrice ≤ (updatedPosition envTriv posP 30000 1).highestPrice ∧
      (updatedPosition envTriv posP 30000 1).lowestPrice ≤ posP.lowestPrice)) ∧
    (IdEqAddress dbPosOnly ∧
     (posP.highestPrice ≤ posP.highestPrice ∧ posP.lowestPrice ≤ posP.lowestPrice)) :=
  ⟨⟨by decide, by decide,
    monotonic_extrema.1 envTriv [] dbPosOnly "tok" 30000 1 posP
      (updatedPosition envTriv posP 30000 1) (by decide) (by decide)⟩,
   ⟨by intro q hq; rcases List.mem_singleton.mp hq with rfl; rfl,
    monotonic_extrema.2 envTriv "tok" [] dbPosOnly [] posP posP
      (by intro q hq; rcases List.mem_singleton.mp hq with rfl; rfl) (by decide)
      (by decide)⟩⟩

lemma map_frameFields_update (p₁ : Position) (l : List Position) :
    (l.map fun q =>
      if q.id = p₁.id then
        { q with currentPrice := p₁.currentPrice, highestPrice := p₁.highestPrice,
                 lowestPrice := p₁.lowestPrice, lastUpdated := p₁.lastUpdated, lfg := p₁.lfg }
      else q).map frameFields = l.map frameFields := by
  induction l with
  | nil => rfl
  | cons x xs ih =>
      simp only [List.map_cons, ih]
      by_cases h : x.id = p₁.id
      · simp [h, frameFields]
      · simp [h]

/-- C9: `updatePosition` touches only the current price, the extrema, the
last-updated timestamp and the flag — at the storage layer the id, address,
symbol, entry price, capital committed, entry timestamp and status of every
row are unchanged, and the returned position keeps all frame fields of the
loaded one while its mutable fields take exactly the prescribed values. -/
theorem update_frame :
    (∀ (db : TradingDatabase) (p : Position),
       ((db.updatePosition p).positions).map frameFields = db.positions.map frameFields) ∧
    (∀ (env : Env) (ex : List String) (db : TradingDatabase) (address : String)
       (price : ℚ) (lfg : ℕ) (p p' : Position),
       db.getPosition address = some p →
       (PositionManager.updatePosition env ex db address price lfg).1 = some p' →
       frameFields p' = frameFields p ∧
       p'.currentPrice = price ∧
       p'.lastUpdated = env.now ∧
       p'.lfg = (if lfg ≠ 0 then 1 else 0)) := by
  constructor
  · intro db p
    unfold TradingDatabase.updatePosition
    exact map_frameFields_update p db.positions
  · intro env ex db address price lfg p p' hp hres
    rw [updatePosition_result_some env ex db address price lfg p p' hp hres]
    exact ⟨rfl, rfl, rfl, rfl⟩

/-- Witness for C9: the concrete update keeps the frame fields of `posP` and
sets the mutable ones as prescribed. -/
theorem update_frame_witness :
    dbPosOnly.getPosition "tok" = some posP ∧
    (PositionManager.updatePosition envTriv [] dbPosOnly "tok" 30000 1).1 =
      some (updatedPosition envTriv posP 30000 1) ∧
    (frameFields (updatedPosition envTriv posP 30000 1) = frameFields posP ∧
     (updatedPosition envTriv posP 30000 1).currentPrice = 30000 ∧
     (updatedPosition envTriv posP 30000 1).lastUpdated = envTriv.now ∧
     (updatedPosition envTriv posP 30000 1).lfg = (if (1 : ℕ) ≠ 0 then 1 else 0)) :=
  ⟨by decide, by decide,
   update_frame.2 envTriv [] dbPosOnly "tok" 30000 1 posP
     (updatedPosition envTriv posP 30000 1) (by decide) (by decide)⟩

end Claims
